import Mathlib

/-!
Formal model of the video-answer-agent pipeline core.

The definitions below are a shallow embedding of the Python source:

* `backend/app/pipeline_logic.py` — the S3-backed interaction log
  (`add_interaction_to_s3`, `update_interaction_status_in_s3`), the
  shared 3-attempt retry loop around every S3 mutation, retrieval and
  context assembly (`_retrieve_relevant_chunks`), rule-based tool
  selection (`_select_perplexity_tool_rule_based`), model-driven tool
  selection (`_select_and_run_tool_llm_based`) and the query pipeline
  coordinator (`run_query_pipeline_async`).
* `video-processing-pipeline/process_video_pipeline.py` — scene
  segmentation with fixed-window fallback
  (`chunk_video_and_generate_metadata`) and vector indexing
  (`index_captions_in_pinecone`).

External effects (S3 reads and writes, OpenAI, Pinecone, the MCP tool
provider) are modelled as explicit outcome parameters: each point where
the Python code performs an external call that can fail takes the result
of that call as an input, and the embedding reproduces exactly the
control flow the code applies to it.
-/

namespace VideoAnswerAgent

/-! ## Python string primitives

Lean string functions such as `String.toLower` do not reduce well inside
the kernel, so the Python string operations used by the code are
re-implemented structurally over `List Char`.  `pyLower` is `str.lower`,
`containsSub s pat` is the Python substring test `pat in s`, `pyWords`
is `str.split()` (split on whitespace runs, no empty words), and
`pyStartsWith` is `str.startswith`.
-/

def s2l (s : String) : List Char := s.data

def pyLower (s : List Char) : List Char := s.map Char.toLower

def beginsWith : List Char → List Char → Bool
  | _, [] => true
  | [], _ :: _ => false
  | c :: cs, p :: ps => c == p && beginsWith cs ps

def containsSub (s pat : List Char) : Bool :=
  match s with
  | [] => beginsWith [] pat
  | _ :: rest => beginsWith s pat || containsSub rest pat

def pyWordsAux : List Char → List Char → List (List Char)
  | [], acc => if acc.isEmpty then [] else [acc.reverse]
  | c :: rest, acc =>
    if c.isWhitespace then
      if acc.isEmpty then pyWordsAux rest [] else acc.reverse :: pyWordsAux rest []
    else pyWordsAux rest (c :: acc)

def pyWords (s : List Char) : List (List Char) := pyWordsAux s []

def pyStartsWith (s pat : List Char) : Bool := beginsWith s pat

/-! ## Retrieval (`_retrieve_relevant_chunks`, pipeline_logic.py 317-382)

A `RMatch` is one Pinecone match: the list returned by
`PINECONE_INDEX.query` is in similarity-rank order, `score` is the
similarity score and `chunk_number` is the optional metadata field the
code sorts by (`x.get('metadata', \x7b\x7d).get('chunk_number', float('inf'))`:
a missing chunk_number sorts last).  The OpenAI embedding call and the
Pinecone query are external calls whose outcomes are inputs here; the
function returns `Except` because the embedding branch re-raises.
-/

structure RMatch where
  matchId : String
  score : Int
  chunk_number : Option Nat
deriving DecidableEq, Repr

def chunkNumLe (a b : RMatch) : Bool :=
  match a.chunk_number, b.chunk_number with
  | _, none => true
  | none, some _ => false
  | some x, some y => x ≤ y

def sortByChunkNumber (ms : List RMatch) : List RMatch :=
  List.insertionSort (fun a b => chunkNumLe a b = true) ms

inductive EmbedOutcome where
  | ok
  | openaiError (msg : String)
  | otherError (msg : String)
deriving DecidableEq, Repr

inductive PineconeQueryOutcome where
  | ok (found : List RMatch)
  | pineconeError (msg : String)
  | otherError (msg : String)
deriving DecidableEq, Repr

def _retrieve_relevant_chunks (embedRes : EmbedOutcome) (queryRes : PineconeQueryOutcome) :
    Except String (List RMatch) :=
  match embedRes with
  | .openaiError _ => .error "RuntimeError: Failed to embed query"
  | .otherError msg => .error msg
  | .ok =>
    match queryRes with
    | .ok ms => .ok (sortByChunkNumber ms)
    | .pineconeError _ => .ok []
    | .otherError _ => .ok []

/-! ## Rule-based tool selection
(`_select_perplexity_tool_rule_based`, pipeline_logic.py 479-512; the
identical `MCPClient.select_perplexity_tool` in mcp_client.py 582-621)

The keyword lists are copied verbatim from the source.  Note that the
code tests every keyword — including the capitalised
`deep_research_keywords` — against the lowercased query.
-/

def research_keywords : List String :=
  ["research", "analyze", "study", "investigate", "comprehensive", "detailed",
   "in-depth", "thorough", "scholarly", "academic", "compare", "contrast",
   "literature", "history of", "development of", "evidence", "sources",
   "references", "citations", "papers"]

def deep_research_keywords : List String := ["Deep Research", "DeepResearch"]

def reasoning_keywords : List String :=
  ["why", "how", "how does", "explain", "reasoning", "logic", "analyze", "solve",
   "problem", "prove", "calculate", "evaluate", "assess", "implications",
   "consequences", "effects of", "causes of", "steps to", "method for",
   "approach to", "strategy", "solution"]

def keywordScore (kws : List String) (target : List Char) : Nat :=
  (kws.filter (fun k => containsSub target (s2l k))).length

def _select_perplexity_tool_rule_based (query : String) : String :=
  let query_lower := pyLower (s2l query)
  let is_long_query := (pyWords (s2l query)).length > 50
  let research_score0 := keywordScore research_keywords query_lower
  let deep_research_score := keywordScore deep_research_keywords query_lower
  let reasoning_score0 := keywordScore reasoning_keywords query_lower
  let research_score := if is_long_query then research_score0 + 1 else research_score0
  let reasoning_score :=
    if (pyStartsWith query_lower (s2l "why") || pyStartsWith query_lower (s2l "how"))
        && (pyWords query_lower).length > 5
    then reasoning_score0 + 1 else reasoning_score0
  if deep_research_score ≥ 1 || research_score ≥ 3 || (research_score ≥ 2 && is_long_query) then
    "perplexity_research"
  else if reasoning_score ≥ 2 then
    "perplexity_reason"
  else
    "perplexity_ask"

/-- The selection rule exactly as the specification words it: the
research tool is chosen when a deep-research keyword (`Deep Research` or
`DeepResearch`) is present in the query, or the research keyword score
is at least 3, or it is at least 2 and the query is longer than 50
words; otherwise the reasoning tool when the reasoning keyword score is
at least 2; otherwise the default ask tool.  This definition follows the
claim text (not the source) and exists to be compared with the source
function above. -/
def specRuleBasedToolSelect (query : String) : String :=
  let query_lower := pyLower (s2l query)
  let deep_present :=
    containsSub (s2l query) (s2l "Deep Research") || containsSub (s2l query) (s2l "DeepResearch")
  let is_long_query := (pyWords (s2l query)).length > 50
  let research_score := keywordScore research_keywords query_lower
  let reasoning_score := keywordScore reasoning_keywords query_lower
  if deep_present || research_score ≥ 3 || (research_score ≥ 2 && is_long_query) then
    "perplexity_research"
  else if reasoning_score ≥ 2 then
    "perplexity_reason"
  else
    "perplexity_ask"

/-! ## The per-video interaction log
(`add_interaction_to_s3` pipeline_logic.py 123-161,
`update_interaction_status_in_s3` pipeline_logic.py 163-209)

The log is one JSON document holding a list of interactions.  Both
mutators are read-modify-write: they read the current list from S3,
modify it, and put the whole document back.  `InteractionsRead` is the
outcome of the internal `get_interactions_from_s3` call: a missing file
(`NoSuchKey`) already yields `ok []` inside that helper, so `err` stands
for every other read failure.

In `add_interaction_to_s3` the read is wrapped in a bare
`try/except` that falls back to the empty list, so a failed read makes
the subsequent put replace the whole log with just the new interaction.
In `update_interaction_status_in_s3` the read is not wrapped: a read
failure propagates to the retry loop and no put happens on that attempt.
-/

structure Interaction where
  interaction_id : String
  user_name : String
  user_query : String
  status : String
  ai_answer : Option String
  answer_timestamp : Option String
deriving DecidableEq, Repr

inductive InteractionsRead where
  | ok (interactions : List Interaction)
  | err (msg : String)
deriving DecidableEq, Repr

def logIds (log : List Interaction) : List String :=
  log.map (fun i => i.interaction_id)

def add_interaction_to_s3 (readRes : InteractionsRead) (interaction : Interaction) :
    List Interaction :=
  let interactions :=
    match readRes with
    | .ok l => l
    | .err _ => []
  interactions ++ [interaction]

def applyStatusUpdate (i : Interaction) (status : String) (final_answer : Option String)
    (answer_timestamp : String) : Interaction :=
  match final_answer with
  | some a =>
    { i with status := status, ai_answer := some a, answer_timestamp := some answer_timestamp }
  | none => { i with status := status }

def updateFirst (interaction_id status : String) (final_answer : Option String)
    (answer_timestamp : String) : List Interaction → List Interaction
  | [] => []
  | i :: rest =>
    if i.interaction_id = interaction_id then
      applyStatusUpdate i status final_answer answer_timestamp :: rest
    else
      i :: updateFirst interaction_id status final_answer answer_timestamp rest

/-- One successful pass of `update_interaction_status_in_s3` over the
current stored list (the read having succeeded).  Returns the stored
list after the call together with a flag recording whether the document
was written back: when the interaction id is not found the code logs a
warning and returns without a put. -/
def update_interaction_status_in_s3 (interactions : List Interaction)
    (interaction_id status : String) (final_answer : Option String)
    (answer_timestamp : String) : List Interaction × Bool :=
  if interactions.any (fun i => i.interaction_id = interaction_id) then
    (updateFirst interaction_id status final_answer answer_timestamp interactions, true)
  else
    (interactions, false)

/-- One interaction-log operation together with the outcome of its
internal S3 read of the current log.  A failed read in an update
propagates to the retry loop so no put happens; a failed read in an
append falls back to the empty list. -/
inductive LogOp where
  | add (read_fails : Bool) (interaction : Interaction)
  | update (read_fails : Bool) (interaction_id status : String)
      (final_answer : Option String) (answer_timestamp : String)
deriving DecidableEq, Repr

def applyLogOp (log : List Interaction) : LogOp → List Interaction
  | .add read_fails i =>
    add_interaction_to_s3 (if read_fails then .err "read failed" else .ok log) i
  | .update read_fails interaction_id status final_answer answer_timestamp =>
    if read_fails then log
    else (update_interaction_status_in_s3 log interaction_id status final_answer
      answer_timestamp).1

def applyLogOps (log : List Interaction) (ops : List LogOp) : List Interaction :=
  ops.foldl applyLogOp log

/-- Side condition for the amended log invariant: every append finds a
working read and a fresh interaction id at the moment it is applied. -/
def opsSafe (log : List Interaction) : List LogOp → Bool
  | [] => true
  | op :: rest =>
    (match op with
     | .add read_fails i =>
       !read_fails && !(decide (i.interaction_id ∈ logIds log))
     | .update _ _ _ _ _ => true)
    && opsSafe (applyLogOp log op) rest

/-! ## The shared S3 retry loop
(pipeline_logic.py 127-161, 166-209, 214-248)

All three S3 mutators (`add_interaction_to_s3`,
`update_interaction_status_in_s3`, `update_overall_processing_status`)
wrap their read-modify-write body in the same loop:

    retries = 3
    for attempt in range(retries):
        try: ...body...; return
        except ...:
            if attempt == retries - 1: raise
            time.sleep(2 ** attempt)

`attemptFails n` is the outcome of the body on attempt `n` (0-based).
The trace records how many attempts ran, the sleeps between them in
seconds, and whether the error was re-raised to the caller. -/

structure RetryTrace where
  attemptsMade : Nat
  sleeps : List Nat
  raised : Bool
deriving DecidableEq, Repr

def retryLoopAux (attemptFails : Nat → Bool) (attempt : Nat) : Nat → RetryTrace
  | 0 => ⟨0, [], false⟩
  | remaining + 1 =>
    if attemptFails attempt then
      if remaining = 0 then ⟨1, [], true⟩
      else
        let t := retryLoopAux attemptFails (attempt + 1) remaining
        ⟨t.attemptsMade + 1, 2 ^ attempt :: t.sleeps, t.raised⟩
    else ⟨1, [], false⟩

def s3MutationRetryTrace (attemptFails : Nat → Bool) : RetryTrace :=
  retryLoopAux attemptFails 0 3

/-! ## Model-driven tool selection
(`_select_and_run_tool_llm_based`, pipeline_logic.py 556-617)

The model reply `claude_response.content` is a list of content blocks.
The code iterates over the blocks, executes the first `tool_use` block
and breaks; only if no block was a `tool_use` does a second loop take
the first `text` block (stripped).  `execTool name input` abstracts
steps 4-5 of the code: calling the tool through the FastMCP client and
normalising its result (or exception) into the returned text. -/

inductive ContentBlock where
  | tool_use (name : String) (input : String)
  | text (body : List Char)
deriving DecidableEq, Repr

def isToolUse : ContentBlock → Bool
  | .tool_use _ _ => true
  | .text _ => false

def firstToolUse : List ContentBlock → Option (String × String)
  | [] => none
  | .tool_use name input :: _ => some (name, input)
  | .text _ :: rest => firstToolUse rest

def pyStrip (s : List Char) : List Char :=
  ((s.dropWhile Char.isWhitespace).reverse.dropWhile Char.isWhitespace).reverse

def firstTextBody : List ContentBlock → Option (List Char)
  | [] => none
  | .text body :: _ => some (pyStrip body)
  | .tool_use _ _ :: rest => firstTextBody rest

def _select_and_run_tool_llm_based (execTool : String → String → List Char)
    (content : List ContentBlock) : List Char :=
  match firstToolUse content with
  | some (name, input) => execTool name input
  | none =>
    match firstTextBody content with
    | some t => t
    | none => s2l "[LLM did not select or run a tool]"

/-! ## The query pipeline coordinator
(`run_query_pipeline_async`, pipeline_logic.py 826-889; the interaction
record is created by `query_processed_video` in main.py 174-195 with
status `processing` and `ai_answer = None`)

The coordinator appends the fresh interaction record, runs retrieval,
context assembly, tool orchestration and synthesis, and then updates the
interaction exactly once: to `completed` with the synthesised answer
(`_synthesize_answer` always returns a string, never `None`), or to
`failed` with no answer when any step raised.  `PipelineRun` is the
outcome of the fallible middle of the pipeline. -/

inductive PipelineRun where
  | success (final_answer : String)
  | failure
deriving DecidableEq, Repr

def run_query_pipeline_async (log : List Interaction) (interaction : Interaction)
    (run : PipelineRun) (answer_timestamp : String) : List Interaction :=
  let log1 := add_interaction_to_s3 (.ok log) interaction
  match run with
  | .success final_answer =>
    (update_interaction_status_in_s3 log1 interaction.interaction_id "completed"
      (some final_answer) answer_timestamp).1
  | .failure =>
    (update_interaction_status_in_s3 log1 interaction.interaction_id "failed"
      none answer_timestamp).1

def findInteraction (log : List Interaction) (interaction_id : String) : Option Interaction :=
  log.find? (fun i => i.interaction_id = interaction_id)

/-! ## Scene segmentation with fixed-window fallback
(`chunk_video_and_generate_metadata`, process_video_pipeline.py 338-397;
the same fallback appears in chunk_by_scenes.py `detect_and_split`
72-103)

The detector result `scene_list` is a list of (start frame, end frame)
pairs.  When it has at most one entry the code falls back to
fixed-duration windows:

    chunk_len_frames = int(fixed_chunk_duration * frame_rate)
    num_fixed_chunks = math.ceil(duration_frames / chunk_len_frames)

with `fixed_chunk_duration` defaulting to 4.0 seconds, and skips any
window with `start_frame >= end_frame`.  Chunk metadata then numbers the
resulting scenes 1-based in order.  The model works at frame
granularity with an integer frame rate, for which
`int(4.0 * frame_rate) = 4 * frame_rate`. -/

def ceilDivNat (a b : Nat) : Nat := (a + b - 1) / b

def fixedScenes (durationFrames chunkLenFrames : Nat) : List (Nat × Nat) :=
  (List.range (ceilDivNat durationFrames chunkLenFrames)).filterMap fun i =>
    let start_frame := i * chunkLenFrames
    let end_frame := min ((i + 1) * chunkLenFrames) durationFrames
    if start_frame ≥ end_frame then none else some (start_frame, end_frame)

structure ChunkMeta where
  chunk_number : Nat
  start_frame : Nat
  end_frame : Nat
deriving DecidableEq, Repr

def numberScenes (scenes : List (Nat × Nat)) : List ChunkMeta :=
  scenes.enum.map (fun p => ⟨p.1 + 1, p.2.1, p.2.2⟩)

def chunk_video_and_generate_metadata (scene_list : List (Nat × Nat))
    (durationFrames frameRate : Nat) : List ChunkMeta × String :=
  if scene_list.length ≤ 1 then
    (numberScenes (fixedScenes durationFrames (4 * frameRate)), "Fixed 4.0s Chunking")
  else
    (numberScenes scene_list, "Scene Detection")

/-- Checks that the chunk_number values of a chunk list are the
contiguous sequence n, n+1, n+2, ... -/
def contiguousFrom : Nat → List ChunkMeta → Bool
  | _, [] => true
  | n, c :: rest => c.chunk_number == n && contiguousFrom (n + 1) rest

/-! ## Vector indexing with partial-failure handling
(`index_captions_in_pinecone`, process_video_pipeline.py 1100-1384)

Inputs model the external calls: `embed caption` is the outcome of the
concurrent OpenAI embedding call for that caption (`none` means the
future raised), `upsertRes n` is the outcome of upserting batch number
`n` (`none` means the Pinecone upsert raised, `some k` means it
returned `upserted_count = k`), `fetch_failed` records whether the
batched existence fetch raised, and `existing_ids` is what it returned
when it did not.  The embedding keys results by caption text, exactly
as the code keys its `embeddings` dict.

The upsert loop (lines 1303-1337) walks the batches in order, adds each
successfully submitted batch, flags `upsert_failed` on a count mismatch
but keeps going, and on an exception records the error and breaks, so
batches after the first raising batch are never sent while batches
already sent are never rolled back.  Afterwards (lines 1343-1353) the
stage sets `indexing_status` from the failure flags, and the final
update section (lines 1357-1384) sets `processing_status = FINISHED`
unconditionally. -/

structure CapChunk where
  chunk_name : String
  caption : String
deriving DecidableEq, Repr

def chunksToProcess (fetch_failed : Bool) (existing_ids : List String)
    (chunks_with_captions : List CapChunk) : List CapChunk :=
  if fetch_failed then chunks_with_captions
  else chunks_with_captions.filter (fun c => !(existing_ids.contains c.chunk_name))

def embeddingFailed (embed : String → Option Nat) (chunks : List CapChunk) : Bool :=
  (chunks.map (fun c => c.caption)).any (fun cap => (embed cap).isNone)

def embeddingErrors (embed : String → Option Nat) (chunks : List CapChunk) : List String :=
  (chunks.map (fun c => c.caption)).filterMap fun cap =>
    if (embed cap).isNone then some ("Embedding failed for caption starting: " ++ cap)
    else none

def prepareVectors (embed : String → Option Nat) (chunks : List CapChunk) :
    List (String × Nat) :=
  chunks.filterMap fun c =>
    match embed c.caption with
    | none => none
    | some v => if c.chunk_name = "" then none else some (c.chunk_name, v)

def makeBatches (batchSize : Nat) (vectors : List (String × Nat)) :
    List (List (String × Nat)) :=
  (List.range (ceilDivNat vectors.length batchSize)).map fun j =>
    (vectors.drop (j * batchSize)).take batchSize

/-- The batch upsert loop.  Returns the batches submitted to Pinecone in
order, the accumulated `total_upserted_count`, the `upsert_failed` flag
and the recorded `indexing_errors` entries. -/
def upsertLoop (upsertRes : Nat → Option Nat) (batchNum : Nat) :
    List (List (String × Nat)) → List (List (String × Nat)) × Nat × Bool × List String
  | [] => ([], 0, false, [])
  | b :: rest =>
    match upsertRes batchNum with
    | some k =>
      let t := upsertLoop upsertRes (batchNum + 1) rest
      if k = b.length then (b :: t.1, k + t.2.1, t.2.2.1, t.2.2.2)
      else (b :: t.1, k + t.2.1, true,
        ("Upsert count mismatch in batch " ++ toString batchNum) :: t.2.2.2)
    | none => ([], 0, true, ["Upsert failed for batch " ++ toString batchNum])

/-- Side condition used by the halting theorem: the run of batches
before the failing one all upsert cleanly (full reported counts). -/
def upsertOkRun (upsertRes : Nat → Option Nat) : Nat → List (List (String × Nat)) → Bool
  | _, [] => true
  | n, b :: rest => upsertRes n == some b.length && upsertOkRun upsertRes (n + 1) rest

structure IndexingOutcome where
  upsertedBatches : List (List (String × Nat))
  vectors_indexed_count : Nat
  indexing_status : String
  processing_status : String
  indexing_errors : List String
deriving DecidableEq, Repr

def INDEXING_BATCH_SIZE : Nat := 100

def index_captions_in_pinecone (embed : String → Option Nat) (upsertRes : Nat → Option Nat)
    (fetch_failed : Bool) (existing_ids : List String)
    (chunks_with_captions : List CapChunk) : IndexingOutcome :=
  let ctp := chunksToProcess fetch_failed existing_ids chunks_with_captions
  let embedding_failed := embeddingFailed embed ctp
  let vectors_to_upsert := prepareVectors embed ctp
  let batches := makeBatches INDEXING_BATCH_SIZE vectors_to_upsert
  let t := upsertLoop upsertRes 1 batches
  let upsert_failed := t.2.2.1
  let indexing_errors := embeddingErrors embed ctp ++ t.2.2.2
  let indexing_status :=
    if upsert_failed || embedding_failed || fetch_failed then "COMPLETED_WITH_ERRORS"
    else if !ctp.isEmpty || fetch_failed then "COMPLETED"
    else "SKIPPED_ALREADY_INDEXED"
  ⟨t.1, t.2.1, indexing_status, "FINISHED", indexing_errors⟩

/-! ## Theorems -/

instance {ε α : Type} [DecidableEq ε] [DecidableEq α] : DecidableEq (Except ε α)
  | .ok a, .ok b =>
    if h : a = b then .isTrue (by rw [h]) else .isFalse (fun hc => h (Except.ok.inj hc))
  | .error a, .error b =>
    if h : a = b then .isTrue (by rw [h]) else .isFalse (fun hc => h (Except.error.inj hc))
  | .ok _, .error _ => .isFalse (fun hc => Except.noConfusion hc)
  | .error _, .ok _ => .isFalse (fun hc => Except.noConfusion hc)

instance : IsTotal RMatch (fun a b => chunkNumLe a b = true) where
  total a b := by
    cases ha : a.chunk_number <;> cases hb : b.chunk_number
    all_goals simp [chunkNumLe, ha, hb]
    omega

instance : IsTrans RMatch (fun a b => chunkNumLe a b = true) where
  trans a b c hab hbc := by
    cases ha : a.chunk_number <;> cases hb : b.chunk_number <;> cases hc : c.chunk_number
    all_goals simp_all [chunkNumLe]
    all_goals omega

/-- C1 counterexample: with two matches returned by the similarity index
in rank order (chunk 2 ranked above chunk 1), the function returns them
re-sorted ascending by chunk_number, not in similarity-rank order. -/
theorem retrieve_similarity_order_counterexample :
    _retrieve_relevant_chunks .ok
        (.ok [⟨"m1", 90, some 2⟩, ⟨"m2", 80, some 1⟩]) =
      .ok [⟨"m2", 80, some 1⟩, ⟨"m1", 90, some 2⟩] ∧
    _retrieve_relevant_chunks .ok
        (.ok [⟨"m1", 90, some 2⟩, ⟨"m2", 80, some 1⟩]) ≠
      .ok [⟨"m1", 90, some 2⟩, ⟨"m2", 80, some 1⟩] := by
  constructor
  · rfl
  · decide

/-- C1 (amended): on a successful embedding and index query,
`_retrieve_relevant_chunks` returns a permutation of the index matches
re-sorted ascending by chunk_number (matches with no chunk_number last),
i.e. chronological order rather than similarity-rank order. -/
theorem retrieve_sorted_by_chunk_number (found : List RMatch) :
    ∃ out, _retrieve_relevant_chunks .ok (.ok found) = .ok out ∧
      out.Perm found ∧ out.Sorted (fun a b => chunkNumLe a b = true) :=
  ⟨sortByChunkNumber found, rfl, List.perm_insertionSort _ _,
    List.sorted_insertionSort _ _⟩

/-- C2 counterexample: an error in the query-embedding step does not
yield an empty match list; it propagates as a raised exception. -/
theorem retrieve_embed_error_counterexample :
    _retrieve_relevant_chunks (.openaiError "embedding failed") (.ok []) =
      .error "RuntimeError: Failed to embed query" ∧
    _retrieve_relevant_chunks (.openaiError "embedding failed") (.ok []) ≠ .ok [] := by
  constructor
  · rfl
  · decide

/-- C2 (amended): only errors in the similarity-index query step degrade
to an empty match list; errors in the query-embedding step propagate as
exceptions. -/
theorem retrieve_error_degradation_amended :
    (∀ msg, _retrieve_relevant_chunks .ok (.pineconeError msg) = .ok [] ∧
            _retrieve_relevant_chunks .ok (.otherError msg) = .ok []) ∧
    (∀ msg queryRes,
      (∃ e, _retrieve_relevant_chunks (.openaiError msg) queryRes = .error e) ∧
      (∃ e, _retrieve_relevant_chunks (.otherError msg) queryRes = .error e)) :=
  ⟨fun _ => ⟨rfl, rfl⟩, fun _ _ => ⟨⟨_, rfl⟩, ⟨_, rfl⟩⟩⟩

/-- C3: the deep-research keyword branch of the rule-based selector is
dead code.  The code counts occurrences of the capitalised literals
`Deep Research` and `DeepResearch` inside the lowercased query, which
can never match, so a query that plainly contains a deep-research
keyword falls through to the default ask tool, while the selection rule
as specified (`specRuleBasedToolSelect`) picks the research tool. -/
theorem rule_based_deep_research_dead_branch :
    _select_perplexity_tool_rule_based "Please do DeepResearch on cats" = "perplexity_ask" ∧
    specRuleBasedToolSelect "Please do DeepResearch on cats" = "perplexity_research" := by
  constructor
  · decide
  · decide

theorem interaction_id_applyStatusUpdate (i : Interaction) (s : String) (a : Option String)
    (ts : String) : (applyStatusUpdate i s a ts).interaction_id = i.interaction_id := by
  cases a <;> rfl

theorem logIds_updateFirst (iid s : String) (a : Option String) (ts : String)
    (l : List Interaction) : logIds (updateFirst iid s a ts l) = logIds l := by
  induction l with
  | nil => rfl
  | cons i rest ih =>
    by_cases h : i.interaction_id = iid
    · simp only [updateFirst, if_pos h, logIds, List.map_cons, interaction_id_applyStatusUpdate]
    · simp only [updateFirst, if_neg h, logIds, List.map_cons]
      simp only [logIds] at ih
      rw [ih]

theorem logIds_update (l : List Interaction) (iid s : String) (a : Option String) (ts : String) :
    logIds ((update_interaction_status_in_s3 l iid s a ts).1) = logIds l := by
  unfold update_interaction_status_in_s3
  by_cases h : (l.any fun i => i.interaction_id = iid) = true
  · simp [h, logIds_updateFirst]
  · simp [h]

theorem logIds_applyLogOp_update (log : List Interaction) (rf : Bool) (iid s : String)
    (a : Option String) (ts : String) :
    logIds (applyLogOp log (.update rf iid s a ts)) = logIds log := by
  cases rf
  · simp [applyLogOp, logIds_update]
  · simp [applyLogOp]

theorem logIds_applyLogOp_add (log : List Interaction) (i : Interaction) :
    logIds (applyLogOp log (.add false i)) = logIds log ++ [i.interaction_id] := by
  simp [applyLogOp, add_interaction_to_s3, logIds]

/-- C4 counterexample: the interaction log [id0] loses id0 when a new
interaction is appended while the internal read of the current log
fails: the bare `try/except` fallback in `add_interaction_to_s3` makes
the put replace the whole document with just the new interaction. -/
theorem interaction_log_read_failure_counterexample :
    applyLogOps [⟨"id0", "alice", "q0", "processing", none, none⟩]
        [.add true ⟨"id1", "bob", "q1", "processing", none, none⟩] =
      [⟨"id1", "bob", "q1", "processing", none, none⟩] ∧
    "id0" ∉ logIds (applyLogOps [⟨"id0", "alice", "q0", "processing", none, none⟩]
        [.add true ⟨"id1", "bob", "q1", "processing", none, none⟩]) := by
  constructor
  · rfl
  · decide

/-- C4 (amended): over any sequence of appends and status updates in
which every append reads the current log successfully and appends a
fresh interaction_id, every interaction_id present in the log stays
present, and uniqueness of interaction_id values is preserved.  (A
failed internal read during an append resets the log to the single new
interaction, and uniqueness is not enforced by the code itself.) -/
theorem interaction_log_preserved_under_safe_ops (log : List Interaction) (ops : List LogOp)
    (h : opsSafe log ops = true) :
    (∀ id ∈ logIds log, id ∈ logIds (applyLogOps log ops)) ∧
    ((logIds log).Nodup → (logIds (applyLogOps log ops)).Nodup) := by
  induction ops generalizing log with
  | nil => exact ⟨fun id hid => hid, fun hn => hn⟩
  | cons op rest ih =>
    have hstep : applyLogOps log (op :: rest) = applyLogOps (applyLogOp log op) rest := rfl
    cases op with
    | add read_fails i =>
      simp only [opsSafe, Bool.and_eq_true, Bool.not_eq_true', decide_eq_false_iff_not] at h
      obtain ⟨⟨hrf, hfresh⟩, hrest⟩ := h
      subst hrf
      have hids := logIds_applyLogOp_add log i
      obtain ⟨ihmem, ihnd⟩ := ih (applyLogOp log (.add false i)) hrest
      constructor
      · intro id hid
        rw [hstep]
        exact ihmem id (by rw [hids]; exact List.mem_append_left _ hid)
      · intro hnd
        rw [hstep]
        apply ihnd
        rw [hids]
        simp [List.nodup_append, hnd, hfresh]
    | update rf iid s a ts =>
      simp only [opsSafe, Bool.true_and] at h
      have hids := logIds_applyLogOp_update log rf iid s a ts
      obtain ⟨ihmem, ihnd⟩ := ih (applyLogOp log (.update rf iid s a ts)) h
      constructor
      · intro id hid
        rw [hstep]
        exact ihmem id (by rw [hids]; exact hid)
      · intro hnd
        rw [hstep]
        exact ihnd (by rw [hids]; exact hnd)

/-- C4 witness: a successful append of a fresh interaction followed by
a status update preserves the existing id and keeps ids unique. -/
theorem interaction_log_preserved_witness :
    opsSafe [⟨"id0", "alice", "q0", "processing", none, none⟩]
        [.add false ⟨"id1", "bob", "q1", "processing", none, none⟩,
         .update false "id0" "completed" (some "answer") "t1"] = true ∧
    ((∀ id ∈ logIds [⟨"id0", "alice", "q0", "processing", none, none⟩],
        id ∈ logIds (applyLogOps [⟨"id0", "alice", "q0", "processing", none, none⟩]
          [.add false ⟨"id1", "bob", "q1", "processing", none, none⟩,
           .update false "id0" "completed" (some "answer") "t1"])) ∧
     ((logIds [⟨"id0", "alice", "q0", "processing", none, none⟩]).Nodup →
        (logIds (applyLogOps [⟨"id0", "alice", "q0", "processing", none, none⟩]
          [.add false ⟨"id1", "bob", "q1", "processing", none, none⟩,
           .update false "id0" "completed" (some "answer") "t1"])).Nodup)) :=
  ⟨by decide, interaction_log_preserved_under_safe_ops _ _ (by decide)⟩

/-- C5 counterexample: when every attempt of an S3 mutation fails, the
retry loop makes 3 attempts and re-raises only at the end, but the
backoff delays are `2 ** attempt` starting at attempt 0, so the first
delay is 1 second, not 2 seconds as claimed. -/
theorem retry_first_backoff_counterexample :
    s3MutationRetryTrace (fun _ => true) = ⟨3, [1, 2], true⟩ ∧
    (s3MutationRetryTrace (fun _ => true)).sleeps.head? ≠ some 2 := by
  constructor
  · rfl
  · decide

/-- C5 (amended): every S3 read-modify-write mutation is attempted at
most 3 times, the error is re-raised exactly when all 3 attempts fail,
and the sleeps between attempts are exponential starting at 1 second
(2 ^ attempt seconds after failed attempt number `attempt`, 0-based). -/
theorem s3_mutation_retry_discipline (attemptFails : Nat → Bool) :
    1 ≤ (s3MutationRetryTrace attemptFails).attemptsMade ∧
    (s3MutationRetryTrace attemptFails).attemptsMade ≤ 3 ∧
    ((s3MutationRetryTrace attemptFails).raised = true ↔
      attemptFails 0 = true ∧ attemptFails 1 = true ∧ attemptFails 2 = true) ∧
    (s3MutationRetryTrace attemptFails).sleeps =
      (List.range ((s3MutationRetryTrace attemptFails).attemptsMade - 1)).map (fun a => 2 ^ a) := by
  by_cases h0 : attemptFails 0 = true
  · by_cases h1 : attemptFails 1 = true
    · by_cases h2 : attemptFails 2 = true
      · simp [s3MutationRetryTrace, retryLoopAux, h0, h1, h2, List.range_succ]
      · simp [s3MutationRetryTrace, retryLoopAux, h0, h1, h2, List.range_succ]
    · simp [s3MutationRetryTrace, retryLoopAux, h0, h1, List.range_succ]
  · simp [s3MutationRetryTrace, retryLoopAux, h0]

theorem contiguousFrom_enumFrom (s : List (Nat × Nat)) : ∀ n : Nat,
    contiguousFrom (n + 1)
      ((List.enumFrom n s).map (fun p => (⟨p.1 + 1, p.2.1, p.2.2⟩ : ChunkMeta))) = true := by
  induction s with
  | nil => intro n; rfl
  | cons x rest ih =>
    intro n
    simp only [List.enumFrom, List.map_cons, contiguousFrom, Bool.and_eq_true, beq_self_eq_true,
      true_and]
    exact ih (n + 1)

theorem numberScenes_contiguous (s : List (Nat × Nat)) :
    contiguousFrom 1 (numberScenes s) = true := by
  simpa [numberScenes, List.enum] using contiguousFrom_enumFrom s 0

/-- C6: whenever scene detection yields at most one segment, the stage
falls back to fixed 4.0-second windows (`int(4.0 * frame_rate)` frames
each); the produced chunk_number values are contiguous from 1; and for
a 12-second clip at 30 fps (360 frames) where the detector returned
exactly 1 scene, the fallback produces ceil(12/4) = 3 segments numbered
1, 2, 3. -/
theorem segmentation_fixed_window_fallback (scene_list : List (Nat × Nat))
    (durationFrames frameRate : Nat) (h : scene_list.length ≤ 1) :
    chunk_video_and_generate_metadata scene_list durationFrames frameRate =
      (numberScenes (fixedScenes durationFrames (4 * frameRate)), "Fixed 4.0s Chunking") ∧
    contiguousFrom 1 (chunk_video_and_generate_metadata scene_list durationFrames frameRate).1
      = true ∧
    (chunk_video_and_generate_metadata [(0, 360)] 360 30).1 =
      [⟨1, 0, 120⟩, ⟨2, 120, 240⟩, ⟨3, 240, 360⟩] := by
  refine ⟨?_, ?_, by decide⟩
  · simp [chunk_video_and_generate_metadata, h]
  · simp [chunk_video_and_generate_metadata, h, numberScenes_contiguous]

/-- C6 witness: the 12-second 30-fps clip with one detected scene. -/
theorem segmentation_fallback_witness :
    chunk_video_and_generate_metadata [(0, 360)] 360 30 =
      (numberScenes (fixedScenes 360 (4 * 30)), "Fixed 4.0s Chunking") ∧
    contiguousFrom 1 (chunk_video_and_generate_metadata [(0, 360)] 360 30).1 = true ∧
    (chunk_video_and_generate_metadata [(0, 360)] 360 30).1 =
      [⟨1, 0, 120⟩, ⟨2, 120, 240⟩, ⟨3, 240, 360⟩] :=
  segmentation_fixed_window_fallback [(0, 360)] 360 30 (by decide)

theorem updateFirst_append_fresh (i : Interaction) (s : String) (a : Option String)
    (ts : String) : ∀ l : List Interaction, i.interaction_id ∉ logIds l →
      updateFirst i.interaction_id s a ts (l ++ [i]) = l ++ [applyStatusUpdate i s a ts] := by
  intro l
  induction l with
  | nil => intro _; simp [updateFirst]
  | cons j rest ih =>
    intro hfresh
    simp only [logIds, List.map_cons, List.mem_cons, not_or] at hfresh
    obtain ⟨hne, hrest⟩ := hfresh
    have hj : ¬ (j.interaction_id = i.interaction_id) := fun hc => hne hc.symm
    simp only [List.cons_append, updateFirst, if_neg hj, List.append_eq]
    rw [ih hrest]

theorem any_id_append_self (l : List Interaction) (i : Interaction) :
    ((l ++ [i]).any fun j => j.interaction_id = i.interaction_id) = true := by
  simp

/-- C8: the query pipeline coordinator appends the fresh interaction
record (status `processing`, no answer) and then updates it exactly
once: on success to `completed` together with a non-null ai_answer, on
failure to `failed` with no answer.  Every previously logged
interaction is carried over unchanged (so a terminal interaction is
never revisited), and the finished record has ai_answer set if and only
if its status is `completed`. -/
theorem query_coordinator_terminal_status (log : List Interaction) (i : Interaction)
    (run : PipelineRun) (ts : String)
    (hfresh : i.interaction_id ∉ logIds log)
    (_hstatus : i.status = "processing") (hans : i.ai_answer = none) :
    ∃ i', run_query_pipeline_async log i run ts = log ++ [i'] ∧
      i'.interaction_id = i.interaction_id ∧
      (i'.status = "completed" ∨ i'.status = "failed") ∧
      (i'.ai_answer.isSome = true ↔ i'.status = "completed") := by
  have hupd : ∀ (st : String) (a : Option String),
      (update_interaction_status_in_s3 (log ++ [i]) i.interaction_id st a ts).1 =
        log ++ [applyStatusUpdate i st a ts] := by
    intro st a
    unfold update_interaction_status_in_s3
    simp only [any_id_append_self, if_true]
    exact updateFirst_append_fresh i st a ts log hfresh
  cases run with
  | success ans =>
    refine ⟨applyStatusUpdate i "completed" (some ans) ts, hupd "completed" (some ans),
      interaction_id_applyStatusUpdate i "completed" (some ans) ts, .inl rfl, ?_⟩
    simp [applyStatusUpdate]
  | failure =>
    refine ⟨applyStatusUpdate i "failed" none ts, hupd "failed" none,
      interaction_id_applyStatusUpdate i "failed" none ts, .inr rfl, ?_⟩
    simp [applyStatusUpdate, hans,
      show ¬ (("failed" : String) = "completed") from by decide]

/-- C8 witness: a fresh interaction processed successfully on an empty
log. -/
theorem query_coordinator_terminal_status_witness :
    ∃ i', run_query_pipeline_async [] ⟨"x", "u", "q", "processing", none, none⟩
        (.success "ans") "t" = [] ++ [i'] ∧
      i'.interaction_id = (⟨"x", "u", "q", "processing", none, none⟩ :
        Interaction).interaction_id ∧
      (i'.status = "completed" ∨ i'.status = "failed") ∧
      (i'.ai_answer.isSome = true ↔ i'.status = "completed") :=
  query_coordinator_terminal_status [] ⟨"x", "u", "q", "processing", none, none⟩
    (.success "ans") "t" (by decide) rfl rfl

theorem firstToolUse_no_tool_append (n a : String) (post : List ContentBlock) :
    ∀ pre : List ContentBlock, (∀ b ∈ pre, isToolUse b = false) →
      firstToolUse (pre ++ .tool_use n a :: post) = some (n, a) := by
  intro pre
  induction pre with
  | nil => intro _; rfl
  | cons b rest ih =>
    intro h
    cases b with
    | tool_use n2 a2 => exact absurd (h _ (List.mem_cons_self _ _)) (by simp [isToolUse])
    | text s =>
      simp only [List.cons_append, firstToolUse]
      exact ih (fun x hx => h x (List.mem_cons_of_mem _ hx))

/-- C9: in model-driven tool selection exactly the first tool_use block
of the model reply is executed — every block after it, tool_use or not,
is ignored — and when the reply contains no tool_use block at all, the
result is the first text block (stripped), with a fixed placeholder
when there is no text block either. -/
theorem llm_first_tool_call_only (execTool : String → String → List Char)
    (pre post : List ContentBlock) (n a : String)
    (hpre : ∀ b ∈ pre, isToolUse b = false) :
    _select_and_run_tool_llm_based execTool (pre ++ .tool_use n a :: post) = execTool n a ∧
    ∀ content, firstToolUse content = none →
      _select_and_run_tool_llm_based execTool content =
        (firstTextBody content).getD (s2l "[LLM did not select or run a tool]") := by
  constructor
  · unfold _select_and_run_tool_llm_based
    rw [firstToolUse_no_tool_append n a post pre hpre]
  · intro content hnone
    unfold _select_and_run_tool_llm_based
    rw [hnone]
    cases ht : firstTextBody content <;> simp [ht]

/-- C9 witness: a reply with a leading text block and two tool_use
blocks executes only the first tool call. -/
theorem llm_first_tool_call_only_witness :
    _select_and_run_tool_llm_based (fun n _ => s2l n)
        ([.text (s2l "hello")] ++ .tool_use "perplexity_ask" "args" ::
          [.tool_use "perplexity_reason" "args2"]) = s2l "perplexity_ask" ∧
    ∀ content, firstToolUse content = none →
      _select_and_run_tool_llm_based (fun n _ => s2l n) content =
        (firstTextBody content).getD (s2l "[LLM did not select or run a tool]") :=
  llm_first_tool_call_only (fun n _ => s2l n) [.text (s2l "hello")]
    [.tool_use "perplexity_reason" "args2"] "perplexity_ask" "args" (by decide)

/-- C10: updating the status of an interaction_id that is not present
in the log returns normally without writing: the stored log is
unchanged and the provided status and answer are discarded. -/
theorem update_missing_interaction_noop (l : List Interaction) (iid status : String)
    (ans : Option String) (ts : String) (h : ∀ i ∈ l, i.interaction_id ≠ iid) :
    update_interaction_status_in_s3 l iid status ans ts = (l, false) := by
  have hany : ¬ ((l.any fun i => i.interaction_id = iid) = true) := by
    simp only [List.any_eq_true, not_exists]
    intro x
    simp only [not_and, decide_eq_true_eq]
    exact h x
  simp [update_interaction_status_in_s3, hany]

/-- C10 witness: updating an absent id on a one-entry log. -/
theorem update_missing_interaction_noop_witness :
    update_interaction_status_in_s3 [⟨"a", "u", "q", "processing", none, none⟩]
        "b" "completed" (some "ans") "t" =
      ([⟨"a", "u", "q", "processing", none, none⟩], false) :=
  update_missing_interaction_noop [⟨"a", "u", "q", "processing", none, none⟩]
    "b" "completed" (some "ans") "t" (by decide)

theorem filterMap_embed_err_ne_nil (embed : String → Option Nat) (l : List String)
    (h : (l.any fun cap => (embed cap).isNone) = true) :
    (l.filterMap fun cap =>
      if (embed cap).isNone then some ("Embedding failed for caption starting: " ++ cap)
      else none) ≠ [] := by
  induction l with
  | nil => simp at h
  | cons c rest ih =>
    simp only [List.any_cons, Bool.or_eq_true] at h
    by_cases hc : (embed c).isNone = true
    · have hc2 : embed c = none := Option.isNone_iff_eq_none.mp hc
      simp [List.filterMap_cons, hc2]
    · cases h with
      | inl h1 => exact absurd h1 hc
      | inr h2 =>
        simp only [List.filterMap_cons, Bool.not_eq_true] at hc ⊢
        rw [hc]
        exact ih h2

theorem embeddingErrors_ne_nil (embed : String → Option Nat) (chunks : List CapChunk)
    (h : embeddingFailed embed chunks = true) : embeddingErrors embed chunks ≠ [] := by
  unfold embeddingFailed at h
  unfold embeddingErrors
  exact filterMap_embed_err_ne_nil embed _ h

theorem upsertLoop_halts_after_ok_run (upsertRes : Nat → Option Nat) :
    ∀ (done : List (List (String × Nat))) (start : Nat) (b : List (String × Nat))
      (rest : List (List (String × Nat))),
      upsertOkRun upsertRes start done = true →
      upsertRes (start + done.length) = none →
      upsertLoop upsertRes start (done ++ b :: rest) =
        (done, (done.map List.length).sum, true,
         ["Upsert failed for batch " ++ toString (start + done.length)]) := by
  intro done
  induction done with
  | nil =>
    intro start b rest _ hfail
    simp only [List.length_nil, Nat.add_zero] at hfail
    simp [upsertLoop, hfail]
  | cons d ds ih =>
    intro start b rest hok hfail
    simp only [upsertOkRun, Bool.and_eq_true, beq_iff_eq] at hok
    obtain ⟨hd, hds⟩ := hok
    have hfail2 : upsertRes (start + 1 + ds.length) = none := by
      rw [show start + 1 + ds.length = start + (d :: ds).length from by simp; omega]
      exact hfail
    simp only [List.cons_append, upsertLoop, hd, List.append_eq, eq_self_iff_true, if_true]
    rw [ih (start + 1) b rest hds hfail2]
    simp only [List.map_cons, List.sum_cons, List.length_cons]
    rw [show start + 1 + ds.length = start + (ds.length + 1) from by omega]

theorem upsertLoop_all_ok (upsertRes : Nat → Option Nat) :
    ∀ (batches : List (List (String × Nat))) (start : Nat),
      upsertOkRun upsertRes start batches = true →
      (upsertLoop upsertRes start batches).1 = batches ∧
      (upsertLoop upsertRes start batches).2.2.1 = false := by
  intro batches
  induction batches with
  | nil => intro start _; exact ⟨rfl, rfl⟩
  | cons d ds ih =>
    intro start hok
    simp only [upsertOkRun, Bool.and_eq_true, beq_iff_eq] at hok
    obtain ⟨hd, hds⟩ := hok
    obtain ⟨ih1, ih2⟩ := ih (start + 1) hds
    simp [upsertLoop, hd, ih1, ih2]

/-- C7: partial failures during indexing.  First, the final update
always sets processing_status to FINISHED.  Second, when any segment
caption fails to embed, the stage still records
indexing_status = COMPLETED_WITH_ERRORS with a non-empty error list.
Third, the concrete scenario: of 10 segments the embedding call fails
for 2 (cap03 and cap07); the other 8 are upserted in one batch, the
errors are recorded, indexing_status = COMPLETED_WITH_ERRORS and
processing_status = FINISHED.  Fourth, when an upsert batch raises
after a clean run of earlier batches, the earlier batches are retained
and no later batch is submitted (upsert_failed is flagged). -/
theorem indexing_partial_failure_handling :
    (∀ (embed : String → Option Nat) (upsertRes : Nat → Option Nat) (fetch_failed : Bool)
       (existing_ids : List String) (chunks : List CapChunk),
       (index_captions_in_pinecone embed upsertRes fetch_failed existing_ids
         chunks).processing_status = "FINISHED") ∧
    (∀ (embed : String → Option Nat) (upsertRes : Nat → Option Nat)
       (existing_ids : List String) (chunks : List CapChunk),
       embeddingFailed embed (chunksToProcess false existing_ids chunks) = true →
       (index_captions_in_pinecone embed upsertRes false existing_ids
         chunks).indexing_status = "COMPLETED_WITH_ERRORS" ∧
       (index_captions_in_pinecone embed upsertRes false existing_ids
         chunks).indexing_errors ≠ []) ∧
    (index_captions_in_pinecone
        (fun cap => if cap = "cap03" ∨ cap = "cap07" then none else some 0)
        (fun _ => some 8) false []
        [⟨"c01", "cap01"⟩, ⟨"c02", "cap02"⟩, ⟨"c03", "cap03"⟩, ⟨"c04", "cap04"⟩,
         ⟨"c05", "cap05"⟩, ⟨"c06", "cap06"⟩, ⟨"c07", "cap07"⟩, ⟨"c08", "cap08"⟩,
         ⟨"c09", "cap09"⟩, ⟨"c10", "cap10"⟩] =
      ⟨[[("c01", 0), ("c02", 0), ("c04", 0), ("c05", 0), ("c06", 0), ("c08", 0),
         ("c09", 0), ("c10", 0)]], 8, "COMPLETED_WITH_ERRORS", "FINISHED",
       ["Embedding failed for caption starting: cap03",
        "Embedding failed for caption starting: cap07"]⟩) ∧
    (∀ (upsertRes : Nat → Option Nat) (start : Nat) (done : List (List (String × Nat)))
       (b : List (String × Nat)) (rest : List (List (String × Nat))),
       upsertOkRun upsertRes start done = true →
       upsertRes (start + done.length) = none →
       (upsertLoop upsertRes start (done ++ b :: rest)).1 = done ∧
       (upsertLoop upsertRes start (done ++ b :: rest)).2.2.1 = true) := by
  refine ⟨fun _ _ _ _ _ => rfl, ?_, by decide, ?_⟩
  · intro embed upsertRes existing_ids chunks h
    constructor
    · simp [index_captions_in_pinecone, h]
    · intro hc
      simp only [index_captions_in_pinecone] at hc
      exact embeddingErrors_ne_nil embed (chunksToProcess false existing_ids chunks) h
        (List.append_eq_nil.mp hc).1
  · intro upsertRes start done b rest hok hfail
    rw [upsertLoop_halts_after_ok_run upsertRes done start b rest hok hfail]
    exact ⟨rfl, rfl⟩

/-- C7 witness: a failing embedding flags the run with errors, and a
batch that raises at number 2 after a clean batch 1 leaves exactly
batch 1 upserted. -/
theorem indexing_partial_failure_witness :
    ((index_captions_in_pinecone (fun _ => none) (fun _ => some 0) false []
        [⟨"c1", "cap1"⟩]).indexing_status = "COMPLETED_WITH_ERRORS" ∧
     (index_captions_in_pinecone (fun _ => none) (fun _ => some 0) false []
        [⟨"c1", "cap1"⟩]).indexing_errors ≠ []) ∧
    ((upsertLoop (fun n => if n = 1 then some 1 else none) 1
        ([[("a", 0)]] ++ [("b", 1)] :: [])).1 = [[("a", 0)]] ∧
     (upsertLoop (fun n => if n = 1 then some 1 else none) 1
        ([[("a", 0)]] ++ [("b", 1)] :: [])).2.2.1 = true) :=
  ⟨indexing_partial_failure_handling.2.1 (fun _ => none) (fun _ => some 0) []
      [⟨"c1", "cap1"⟩] (by decide),
   indexing_partial_failure_handling.2.2.2 (fun n => if n = 1 then some 1 else none) 1
      [[("a", 0)]] [("b", 1)] [] (by decide) (by decide)⟩

end VideoAnswerAgent
